import Mathlib

/-!
Verification of the postgresql-anyio connection engine and the pgtrio
wire-message framer against their natural-language specification.

Bytes are modelled as natural numbers (each below 256 on real wire data),
byte buffers as `List Nat`. Python functions that can raise are modelled
with `Except String`; Python `None` results are `Option.none`.
-/

/-- ASCII byte 32, the space character used by `bytes.split(b" ")`. -/
def spaceByte : Nat := 32

/-- Model of Python `bytes.split(b" ")`: split on every single space byte,
keeping empty fields. -/
def splitOnSpace : List Nat → List (List Nat)
  | [] => [[]]
  | b :: rest =>
    let r := splitOnSpace rest
    if b = spaceByte then [] :: r
    else (b :: r.headD []) :: r.tail

/-- Boolean test that `pat` is a prefix of `l`, modelling `bytes.startswith`. -/
def startsWithB : List Nat → List Nat → Bool
  | [], _ => true
  | _ :: _, [] => false
  | p :: ps, b :: bs => p = b && startsWithB ps bs

/-- ASCII digit test (bytes 48..57). -/
def isDigitByte (b : Nat) : Bool := 48 ≤ b && b ≤ 57

/-- Value of a big-endian ASCII digit string. -/
def decValue (bs : List Nat) : Nat := bs.foldl (fun a b => 10 * a + (b - 48)) 0

/-- Model of Python `int(bs.decode("ascii"))` on the inputs occurring in
command tags: an optional minus sign followed by one or more ASCII digits;
anything else raises. -/
def pyInt (bs : List Nat) : Except String Int :=
  match bs with
  | [] => .error "invalid literal for int"
  | b :: ds =>
    if b = 45 then
      if ds ≠ [] ∧ ds.all isDigitByte then .ok (-(decValue ds : Int))
      else .error "invalid literal for int"
    else
      if (b :: ds).all isDigitByte then .ok (decValue (b :: ds) : Int)
      else .error "invalid literal for int"

/-- Bytes of a string literal (ASCII code points). -/
def strBytes (s : String) : List Nat := s.toList.map Char.toNat

/-- Model of `_utils.get_rowcount`: parse a CommandComplete command tag.
Tags starting with SELECT or UPDATE split into exactly two space-separated
parts whose second part is the row count; tags starting with INSERT split
into exactly three parts whose third part is the row count; every other
tag (DELETE included, since the source has no DELETE branch) yields
`none`. A split of the wrong arity or a non-numeric count raises. -/
def get_rowcount (cmd_tag : List Nat) : Except String (Option Int) :=
  if startsWithB (strBytes "SELECT") cmd_tag then
    match splitOnSpace cmd_tag with
    | [_, rows] => (pyInt rows).map some
    | _ => .error "unpacking mismatch"
  else if startsWithB (strBytes "INSERT") cmd_tag then
    match splitOnSpace cmd_tag with
    | [_, _, rows] => (pyInt rows).map some
    | _ => .error "unpacking mismatch"
  else if startsWithB (strBytes "UPDATE") cmd_tag then
    match splitOnSpace cmd_tag with
    | [_, rows] => (pyInt rows).map some
    | _ => .error "unpacking mismatch"
  else
    .ok none

/-- Modelled from the spec: the server-to-client messages consumed by the
simple-query loop (`_process_simple_query`). The message classes
CommandComplete, DataRow, RowDescription and EmptyQueryResponse are not in
the provided sources (`src/pgtrio/_pgmsg.py` stops before them); their
payloads follow the data-model table in the spec (CommandComplete carries
a textual tag, DataRow a list of nullable column byte strings,
RowDescription a list of field descriptors, EmptyQueryResponse nothing). -/
inductive SrvMsg where
  | errorResponse (pairs : List (Nat × List Nat))
  | dataRow (columns : List (Option (List Nat)))
  | rowDescription (fields : List Nat)
  | commandComplete (cmd_tag : List Nat)
  | emptyQueryResponse
  deriving DecidableEq, Repr

/-- A decoded row as stored by the simple-query loop when
`dont_decode_values` is set: the raw nullable column byte strings. -/
abbrev RawRow := List (Option (List Nat))

/-- Model of `Connection._process_simple_query`, folded over the stream of
server replies: DataRow appends to the results, RowDescription records the
row description, EmptyQueryResponse sets the row count to 0 and stops,
CommandComplete sets the row count from `get_rowcount` and stops,
ErrorResponse raises. An exhausted stream means the connection would
block forever waiting for a message. -/
def process_simple_query :
    List SrvMsg → List RawRow → Except String (List RawRow × Option Int)
  | [], _ => .error "blocked waiting for a server message"
  | .errorResponse _ :: _, _ => .error "DatabaseError: error executing query"
  | .dataRow cols :: rest, acc => process_simple_query rest (acc ++ [cols])
  | .rowDescription _ :: rest, acc => process_simple_query rest acc
  | .emptyQueryResponse :: _, acc => .ok (acc, some 0)
  | .commandComplete tag :: _, acc =>
    (get_rowcount tag).map fun rc => (acc, rc)

/-- Decimal ASCII rendering of a natural number (the form `n` takes inside
a command tag such as `SELECT n`). -/
def natDecimal (n : Nat) : List Nat :=
  if n = 0 then [48] else ((Nat.digits 10 n).reverse.map (· + 48))

/-- The command tag `SELECT n`. -/
def selectTag (n : Nat) : List Nat := strBytes "SELECT " ++ natDecimal n

/-- The command tag `INSERT oid n`. -/
def insertTag (oid n : Nat) : List Nat :=
  strBytes "INSERT " ++ natDecimal oid ++ [spaceByte] ++ natDecimal n

/-- The command tag `UPDATE n`. -/
def updateTag (n : Nat) : List Nat := strBytes "UPDATE " ++ natDecimal n

/-- The command tag `DELETE n`. -/
def deleteTag (n : Nat) : List Nat := strBytes "DELETE " ++ natDecimal n

/-- Model of the Python slice `msg[s:e]` on a byte buffer. -/
def sliceBytes (msg : List Nat) (s e : Nat) : List Nat := (msg.drop s).take (e - s)

/-- Big-endian unsigned value of a byte string, modelling
`int.from_bytes(bs, byteorder="big")`. -/
def beNat (bs : List Nat) : Nat := bs.foldl (fun a b => 256 * a + b) 0

/-- Big-endian signed value of a byte string, modelling
`int.from_bytes(bs, byteorder="big", signed=True)` (the empty string
yields 0, as in Python). -/
def pySignedBE (bs : List Nat) : Int :=
  if bs.length = 0 then 0
  else if beNat bs < 2 ^ (8 * bs.length - 1) then (beNat bs : Int)
  else (beNat bs : Int) - 2 ^ (8 * bs.length)

/-- Index of the first zero byte of a buffer, if any. -/
def findZeroIdx : List Nat → Option Nat
  | [] => none
  | b :: rest => if b = 0 then some 0 else (findZeroIdx rest).map (· + 1)

/-- Model of `msg.index(b"\0", start)`: position of the first zero byte at
or after `start`, searching to the end of the whole buffer. -/
def findZeroFrom (msg : List Nat) (start : Nat) : Option Nat :=
  (findZeroIdx (msg.drop start)).map (fun k => start + k)

/-- Model of `String.deserialize`: the bytes before the next NUL and the
count consumed (value plus its terminator); raises when no NUL follows. -/
def string_deserialize (msg : List Nat) (start : Nat) :
    Except String (List Nat × Nat) :=
  match findZeroFrom msg start with
  | none => .error "String is not null terminated."
  | some z => .ok (sliceBytes msg start z, z - start + 1)

/-- Model of `Byte1.deserialize`: one byte and a consumed count of 1; the
assertion on the slice length fails when `start` is past the buffer. -/
def byte1_deserialize (msg : List Nat) (start : Nat) :
    Except String (Nat × Nat) :=
  if start < msg.length then .ok (msg.getD start 0, 1)
  else .error "AssertionError: Byte1 requires exactly one byte"

/-- Model of `Int32.deserialize`: signed big-endian value of the 4-byte
slice at `start` (shorter when the buffer ends early, as in Python). -/
def int32At (msg : List Nat) (start : Nat) : Int :=
  pySignedBE (sliceBytes msg start (start + 4))

/-- The typed protocol messages defined in `src/pgtrio/_pgmsg.py` (the
concrete Authentication sub-classes share wire type `R`). -/
inductive PgMsg where
  | authenticationOk
  | authenticationKerberosV5
  | authenticationCleartextPassword
  | authenticationMD5Password (salt : List Nat)
  | authenticationSCMCredential
  | authenticationGSS
  | authenticationGSSContinue (auth_data : List Nat)
  | authenticationSSPI
  | authenticationSASL (auth_mechanism : List Nat)
  | authenticationSASLContinue (data : List Nat)
  | authenticationSASLFinal (data : List Nat)
  | backendKeyData (pid secret_key : Int)
  | errorResponse (pairs : List (Nat × List Nat))
  | negotiateProtocolVersion (minor_ver_supported n_unrecognized : Int)
      (option_name : List Nat)
  | noticeResponse (notices : List (Nat × List Nat))
  | parameterStatus (param_name param_value : List Nat)
  | passwordMessage (password : List Nat)
  | readyForQuery (transaction_status : Nat)
  deriving DecidableEq, Repr

/-- Model of the `(Byte1, String)` pair loop of
`ErrorResponse._deserialize`: scan from `idx`, bounded by the end of the
whole buffer (the declared frame length is not consulted), collecting
pairs until a lone zero byte; returns the pairs and the index of the
terminator. Running off the buffer raises; a string without a NUL
raises. -/
def errScan (msg : List Nat) (idx : Nat) (acc : List (Nat × List Nat)) :
    Except String (List (Nat × List Nat) × Nat) :=
  if idx < msg.length then
    if msg.getD idx 0 = 0 then .ok (acc, idx)
    else
      match hz : findZeroFrom msg (idx + 1) with
      | none => .error "String is not null terminated."
      | some z =>
        errScan msg (z + 1) (acc ++ [(msg.getD idx 0, sliceBytes msg (idx + 1) z)])
  else .error "Unterminated ErrorResponse message (should end with a zero byte)"
termination_by msg.length - idx
decreasing_by
  simp only [findZeroFrom, Option.map_eq_some'] at hz
  obtain ⟨k, hk, rfl⟩ := hz
  omega

/-- Model of `ErrorResponse._deserialize` (the `length` argument is
accepted and ignored, exactly as in the source). -/
def error_response_deserialize (msg : List Nat) (start : Nat) (_length : Nat) :
    Except String (Option PgMsg) :=
  (errScan msg start []).map fun p => some (.errorResponse p.1)

/-- Model of `NoticeResponse._deserialize`: when the first scanned byte is
the terminator the loop breaks and the function falls off its end,
returning Python `None`; when a pair is present the body reads the code,
then a string, then evaluates `obj.notices` with `obj` unbound, raising a
NameError; reaching the end of the buffer or an unterminated string
raises. -/
def notice_deserialize (msg : List Nat) (start : Nat) :
    Except String (Option PgMsg) :=
  if start < msg.length then
    if msg.getD start 0 = 0 then .ok none
    else
      match findZeroFrom msg start with
      | none => .error "String is not null terminated."
      | some _ => .error "NameError: name obj is not defined"
  else .error "Unterminated NoticeMessage message (should end with a zero byte)"

/-- Model of `Authentication._deserialize`: dispatch on the first i32 of
the payload; the data-carrying variants slice to the end of the whole
buffer, as in the source. -/
def auth_deserialize (msg : List Nat) (start : Nat) :
    Except String (Option PgMsg) :=
  let auth := pySignedBE (sliceBytes msg start (start + 4))
  if auth = 0 then .ok (some .authenticationOk)
  else if auth = 2 then .ok (some .authenticationKerberosV5)
  else if auth = 3 then .ok (some .authenticationCleartextPassword)
  else if auth = 5 then
    .ok (some (.authenticationMD5Password (sliceBytes msg (start + 4) (start + 8))))
  else if auth = 6 then .ok (some .authenticationSCMCredential)
  else if auth = 7 then .ok (some .authenticationGSS)
  else if auth = 8 then .ok (some (.authenticationGSSContinue (msg.drop (start + 4))))
  else if auth = 9 then .ok (some .authenticationSSPI)
  else if auth = 10 then
    (string_deserialize msg (start + 4)).map fun p => some (.authenticationSASL p.1)
  else if auth = 11 then .ok (some (.authenticationSASLContinue (msg.drop (start + 4))))
  else if auth = 12 then .ok (some (.authenticationSASLFinal (msg.drop (start + 4))))
  else .error "Unknown auth type"

/-- The wire type bytes present in the `msg_classes` registry built by the
metaclass: R, K, E, v, N, S, p, Z. -/
def registeredTypeBytes : List Nat := [82, 75, 69, 118, 78, 83, 112, 90]

/-- Per-class `_deserialize` dispatch. BackendKeyData, ParameterStatus,
NegotiateProtocolVersion and ReadyForQuery use the generic field-by-field
deserializer of `PgMessage`; PasswordMessage cannot be deserialized since
its initializer requires a password argument (`cls()` raises). The
`_length` argument is ignored by every branch, as in the source. -/
def sub_deserialize (t : Nat) (msg : List Nat) (start : Nat) (_length : Nat) :
    Except String (Option PgMsg) :=
  if t = 82 then auth_deserialize msg start
  else if t = 75 then
    .ok (some (.backendKeyData (int32At msg start) (int32At msg (start + 4))))
  else if t = 69 then error_response_deserialize msg start _length
  else if t = 118 then
    (string_deserialize msg (start + 8)).map fun p =>
      some (.negotiateProtocolVersion (int32At msg start) (int32At msg (start + 4)) p.1)
  else if t = 78 then notice_deserialize msg start
  else if t = 83 then do
    let p ← string_deserialize msg start
    let q ← string_deserialize msg (start + p.2)
    .ok (some (.parameterStatus p.1 q.1))
  else if t = 112 then
    .error "TypeError: PasswordMessage initializer requires a password"
  else if t = 90 then
    (byte1_deserialize msg start).map fun b => some (.readyForQuery b.1)
  else .error "Unknown message type"

/-- Model of `PgMessage.deserialize`: `(None, 0)` when fewer than 5 bytes
are buffered from `start`; unknown type byte raises; `(None, 0)` when the
declared length exceeds the bytes buffered past the type byte; otherwise
the per-class result paired with declared length plus one. -/
def pg_deserialize (msg : List Nat) (start : Nat) :
    Except String (Option PgMsg × Nat) :=
  if msg.length - start < 5 then .ok (none, 0)
  else
    let msgType := msg.getD start 0
    if msgType ∉ registeredTypeBytes then .error "Unknown message type"
    else
      let msgLen := beNat (sliceBytes msg (start + 1) (start + 5))
      if msgLen > msg.length - start - 1 then .ok (none, 0)
      else
        (sub_deserialize msgType msg (start + 1 + 4) (msgLen - 4)).map
          fun m => (m, msgLen + 1)

/-- The 4 big-endian bytes of a natural number below 2^32. -/
def natTo4be (n : Nat) : List Nat :=
  [n / 2 ^ 24 % 256, n / 2 ^ 16 % 256, n / 2 ^ 8 % 256, n % 256]

/-- Serialization of an `Int32` field: two-complement big-endian. -/
def int32be (v : Int) : List Nat := natTo4be ((v % (2 ^ 32 : Int)).toNat)

/-- Model of `PgMessage.__bytes__` for each variant: type byte (when the
class has one), 4-byte length including itself, then the serializable
class fields in declaration order. ErrorResponse and NoticeResponse keep
their pairs in instance attributes that the generic serializer never
visits, so their payload is empty; the Authentication sub-classes have no
type byte and serialize only their `auth` discriminator. -/
def pgEncode : PgMsg → List Nat
  | .authenticationOk => natTo4be 8 ++ int32be 0
  | .authenticationKerberosV5 => natTo4be 8 ++ int32be 2
  | .authenticationCleartextPassword => natTo4be 8 ++ int32be 3
  | .authenticationMD5Password _ => natTo4be 8 ++ int32be 5
  | .authenticationSCMCredential => natTo4be 8 ++ int32be 6
  | .authenticationGSS => natTo4be 8 ++ int32be 7
  | .authenticationGSSContinue _ => natTo4be 8 ++ int32be 8
  | .authenticationSSPI => natTo4be 8 ++ int32be 9
  | .authenticationSASL _ => natTo4be 8 ++ int32be 10
  | .authenticationSASLContinue _ => natTo4be 8 ++ int32be 11
  | .authenticationSASLFinal _ => natTo4be 8 ++ int32be 12
  | .backendKeyData pid key => 75 :: natTo4be 12 ++ int32be pid ++ int32be key
  | .errorResponse _ => 69 :: natTo4be 4
  | .negotiateProtocolVersion a b s =>
    118 :: natTo4be (4 + 4 + 4 + s.length + 1) ++ int32be a ++ int32be b ++ s ++ [0]
  | .noticeResponse _ => 78 :: natTo4be 4
  | .parameterStatus n v =>
    83 :: natTo4be (4 + (n.length + 1) + (v.length + 1)) ++ n ++ [0] ++ v ++ [0]
  | .passwordMessage pw => 112 :: natTo4be (4 + pw.length + 1) ++ pw ++ [0]
  | .readyForQuery b => 90 :: natTo4be 5 ++ [b]

/-- Bytes of one `(field-code, c-string)` pair on the wire. -/
def pairBytes (p : Nat × List Nat) : List Nat := p.1 :: (p.2 ++ [0])

/-- Wire form of a pair list (without the final terminator byte). -/
def pairsFlat (ps : List (Nat × List Nat)) : List Nat := ps.flatMap pairBytes

/-- A pair list is well formed when no field code is zero and no string
contains a zero byte. -/
def wfPairs (ps : List (Nat × List Nat)) : Prop :=
  ∀ p ∈ ps, p.1 ≠ 0 ∧ 0 ∉ p.2

/-- Lowercase hexadecimal digit byte for a value below 16. -/
def hexDigitByte (n : Nat) : Nat := if n < 10 then 48 + n else 87 + n

/-- Lowercase ASCII hex rendering of a digest byte string, modelling
`hashlib.md5(x).hexdigest().encode("ascii")` applied to the raw digest. -/
def hexLowerBytes (digest : List Nat) : List Nat :=
  digest.flatMap fun b => [hexDigitByte (b / 16), hexDigitByte (b % 16)]

/-- Model of the MD5 branch of `PasswordMessage.__init__`, with the MD5
digest function abstracted: hash password concatenated with user name,
render as lowercase hex, append the salt, hash and hex again, and put
the ASCII marker `md5` in front. -/
def password_message_md5 (md5 : List Nat → List Nat)
    (password username salt : List Nat) : List Nat :=
  let userpass := password ++ username
  let userpass_md5 := hexLowerBytes (md5 userpass)
  let final_hash := hexLowerBytes (md5 (userpass_md5 ++ salt))
  strBytes "md5" ++ final_hash

/-- Modelled from the spec: the value the spec requires in the MD5
PasswordMessage, written exactly as the spec words it:
`"md5" + md5_hex( md5_hex(password||user) || salt )` with each hash
rendered as lowercase ASCII hex. -/
def spec_md5_password (md5 : List Nat → List Nat)
    (password username salt : List Nat) : List Nat :=
  strBytes "md5" ++ hexLowerBytes (md5 (hexLowerBytes (md5 (password ++ username)) ++ salt))

/-- The visible effect of one call to `Connection._handle_pre_auth_msg`. -/
inductive PreAuthAction where
  | setAuthOk
  | sendBytes (wire : List Nat)
  | raiseInterfaceError (method : String)
  | ignored
  deriving DecidableEq, Repr

/-- Model of `Connection._handle_pre_auth_msg`: AuthenticationOk fires the
auth event; AuthenticationMD5Password sends a PasswordMessage computed
from password, user name and salt; every other Authentication variant
raises an interface error naming the method (the class name without its
`Authentication` front part); non-authentication messages fall through. -/
def handle_pre_auth_msg (md5 : List Nat → List Nat)
    (password username : List Nat) : PgMsg → PreAuthAction
  | .authenticationOk => .setAuthOk
  | .authenticationMD5Password salt =>
    .sendBytes (pgEncode (.passwordMessage (password_message_md5 md5 password username salt)))
  | .authenticationKerberosV5 => .raiseInterfaceError "KerberosV5"
  | .authenticationCleartextPassword => .raiseInterfaceError "CleartextPassword"
  | .authenticationSCMCredential => .raiseInterfaceError "SCMCredential"
  | .authenticationGSS => .raiseInterfaceError "GSS"
  | .authenticationGSSContinue _ => .raiseInterfaceError "GSSContinue"
  | .authenticationSSPI => .raiseInterfaceError "SSPI"
  | .authenticationSASL _ => .raiseInterfaceError "SASL"
  | .authenticationSASLContinue _ => .raiseInterfaceError "SASLContinue"
  | .authenticationSASLFinal _ => .raiseInterfaceError "SASLFinal"
  | _ => .ignored

/-- The two exception kinds relevant to the closed-connection guard. -/
inductive PyExc where
  | programmingError (msg : String)
  | interfaceError (msg : String)
  deriving DecidableEq, Repr

/-- Discriminator for interface errors. -/
def isInterfaceError : PyExc → Bool
  | .interfaceError _ => true
  | _ => false

/-- The connection flags consulted by the guards at the top of
`Connection.execute`. -/
structure ExecState where
  startClosing : Bool
  closedEvent : Bool
  ownerCheckDisabled : Bool
  callerIsOwner : Bool
  deriving DecidableEq, Repr

/-- Model of the guard sequence at the top of `Connection.execute`: a set
closing flag or a fired closed event raises a ProgrammingError; then an
enabled owner check against a foreign task raises an InterfaceError. -/
def execute_guard (s : ExecState) : Except PyExc Unit :=
  if s.startClosing || s.closedEvent then
    .error (.programmingError "Connection is closed.")
  else if !s.ownerCheckDisabled && !s.callerIsOwner then
    .error (.interfaceError "Calling task is not owner of the connection")
  else .ok ()

/-- Protocol messages sent by one `execute` call: when a guard fires,
nothing is sent and the exception is reported; otherwise the rest of the
call sends its messages (`restSends` stands for the Parse/Bind/... wire
traffic of the prepared-statement path). -/
def execute_messages (s : ExecState) (restSends : List (List Nat)) :
    List (List Nat) × Option PyExc :=
  match execute_guard s with
  | .error e => ([], some e)
  | .ok _ => (restSends, none)

/-- The four values of `Connection._query_status`. -/
inductive QueryStatus where
  | initializing
  | idle
  | inTransaction
  | errorState
  deriving DecidableEq, Repr

/-- The kinds of client-to-server messages the engine sends. -/
inductive WireMsgKind where
  | query
  | parse
  | bind
  | describe
  | close
  | flush
  | execute
  | startup
  | password
  | sync
  | terminate
  deriving DecidableEq, Repr

/-- The `query_message_types` tuple of `Connection._send_msg`: Query,
Parse, Bind, Describe, Close, Flush, Execute. -/
def isQueryMessageType : WireMsgKind → Bool
  | .query => true
  | .parse => true
  | .bind => true
  | .describe => true
  | .close => true
  | .flush => true
  | .execute => true
  | _ => false

/-- The ready flag and transaction status of a connection. -/
structure ConnState where
  isReady : Bool
  queryStatus : QueryStatus
  deriving DecidableEq, Repr

/-- Model of `Connection._send_msg`: when any message of the batch is one
of the query message types the ready flag is cleared; otherwise the state
is untouched. -/
def send_msg (s : ConnState) (msgs : List WireMsgKind) : ConnState :=
  if msgs.any isQueryMessageType then { s with isReady := false } else s

/-- Model of `Connection._handle_msg_ready_for_query`: the carried status
byte (I, T or E) overwrites the query status and the ready flag is set;
an unknown byte raises before either assignment. -/
def handle_msg_ready_for_query (s : ConnState) (status : Nat) :
    Except String ConnState :=
  if status = 73 then .ok { s with isReady := true, queryStatus := .idle }
  else if status = 84 then .ok { s with isReady := true, queryStatus := .inTransaction }
  else if status = 69 then .ok { s with isReady := true, queryStatus := .errorState }
  else .error "Unknown status value in ReadyForQuery message"

/-- Events observable on one connection: a `_send_msg` call, a handled
ReadyForQuery, or any other received message (none of whose handlers
touches the ready flag). -/
inductive ConnEvent where
  | sendMsgs (msgs : List WireMsgKind)
  | recvReadyForQuery (status : Nat)
  | recvOther
  deriving DecidableEq, Repr

/-- One step of the connection engine. A batch containing a query message
type can only be sent from a ready state: `_execute_simple` blocks on the
ready condition variable before sending Query (and, modelled from the
spec for the prepared-statement path whose source is not provided, the
extended-query pipeline waits on the same ready gate before sending
Parse/Bind/Describe/Execute). Other batches are unrestricted; a
ReadyForQuery is processed by its handler; other received messages leave
the ready flag alone. -/
inductive ConnStep : ConnState → ConnEvent → ConnState → Prop where
  | sendGated (s : ConnState) (msgs : List WireMsgKind) :
    s.isReady = true → msgs.any isQueryMessageType = true →
    ConnStep s (.sendMsgs msgs) (send_msg s msgs)
  | sendUngated (s : ConnState) (msgs : List WireMsgKind) :
    msgs.any isQueryMessageType = false →
    ConnStep s (.sendMsgs msgs) (send_msg s msgs)
  | recvRFQ (s : ConnState) (status : Nat) (s2 : ConnState) :
    handle_msg_ready_for_query s status = .ok s2 →
    ConnStep s (.recvReadyForQuery status) s2
  | recvOther (s : ConnState) : ConnStep s .recvOther s

/-- A finite run of connection steps. -/
inductive ConnTrace : ConnState → List ConnEvent → ConnState → Prop where
  | nil (s : ConnState) : ConnTrace s [] s
  | cons (s : ConnState) (e : ConnEvent) (s2 : ConnState) (es : List ConnEvent)
      (s3 : ConnState) :
    ConnStep s e s2 → ConnTrace s2 es s3 → ConnTrace s (e :: es) s3

/-- Model of `Connection._close_stmt`: append the name to the
`_statements_to_close` list. -/
def close_stmt (statements_to_close : List String) (stmt_name : String) :
    List String :=
  statements_to_close ++ [stmt_name]

/-- The guarded DEALLOCATE block issued by `_close_pending_statements`
for one statement name. -/
def deallocStatement (stmt_name : String) : String :=
  "DO $$ BEGIN DEALLOCATE " ++ stmt_name ++
    "; EXCEPTION WHEN invalid_sql_statement_name THEN NULL; END $$;"

/-- Model of `Connection._close_pending_statements`: inside a transaction
it returns at once; otherwise it issues the guarded DEALLOCATE block for
every recorded name. In both cases the list itself is returned unchanged
(the source never removes names from it). -/
def close_pending_statements (in_transaction : Bool)
    (statements_to_close : List String) : List String × List String :=
  if in_transaction then (statements_to_close, [])
  else (statements_to_close, statements_to_close.map deallocStatement)

/-- The statement-lifecycle operations visible to the deferred-close
machinery: recording a name via `_close_stmt`, or a top-level `execute`
reaching `_close_pending_statements` with the given transaction flag. -/
inductive StmtOp where
  | record (stmt_name : String)
  | topLevelExecute (in_transaction : Bool)

/-- One statement-lifecycle step over the pair (statements-to-close list,
log of issued DEALLOCATE batches). -/
def stmtStep : List String × List (List String) → StmtOp → List String × List (List String)
  | (stmts, log), .record n => (close_stmt stmts n, log)
  | (stmts, log), .topLevelExecute inTx =>
    ((close_pending_statements inTx stmts).1,
      log ++ [(close_pending_statements inTx stmts).2])

/-- Run a sequence of statement-lifecycle operations from the initial
empty state. -/
def runStmtOps (ops : List StmtOp) : List String × List (List String) :=
  ops.foldl stmtStep ([], [])

/-- The names recorded by the `record` operations of a sequence, in
order. -/
def recordedNames (ops : List StmtOp) : List String :=
  ops.filterMap fun op =>
    match op with
    | .record n => some n
    | _ => none

theorem foldr_ofDigits (L : List Nat) :
    L.foldr (fun d a => 10 * a + d) 0 = Nat.ofDigits 10 L := by
  induction L with
  | nil => simp [Nat.ofDigits]
  | cons d L ih => simp [Nat.ofDigits_cons, ih]; ring

theorem decValue_natDecimal (n : Nat) : decValue (natDecimal n) = n := by
  by_cases h : n = 0
  · subst h; rfl
  · unfold natDecimal decValue
    rw [if_neg h, List.foldl_map, List.foldl_reverse]
    simp only [Nat.add_sub_cancel]
    rw [foldr_ofDigits, Nat.ofDigits_digits]

theorem natDecimal_mem (n : Nat) : ∀ b ∈ natDecimal n, 48 ≤ b ∧ b ≤ 57 := by
  intro b hb
  unfold natDecimal at hb
  by_cases h : n = 0
  · rw [if_pos h] at hb; simp at hb; omega
  · rw [if_neg h] at hb
    simp only [List.mem_map, List.mem_reverse] at hb
    obtain ⟨d, hd, rfl⟩ := hb
    have := Nat.digits_lt_base (by norm_num) hd
    omega

theorem natDecimal_ne_nil (n : Nat) : natDecimal n ≠ [] := by
  unfold natDecimal
  by_cases h : n = 0
  · simp [h]
  · rw [if_neg h]
    simp only [ne_eq, List.map_eq_nil_iff, List.reverse_eq_nil_iff]
    exact Nat.digits_ne_nil_iff_ne_zero.mpr h

theorem natDecimal_all_digits (n : Nat) : (natDecimal n).all isDigitByte = true := by
  rw [List.all_eq_true]
  intro b hb
  have := natDecimal_mem n b hb
  simp [isDigitByte]; omega

theorem natDecimal_no_space (n : Nat) : ∀ b ∈ natDecimal n, b ≠ 32 :=
  fun b hb => by have := natDecimal_mem n b hb; omega

theorem pyInt_natDecimal (n : Nat) : pyInt (natDecimal n) = .ok (n : Int) := by
  rcases hd : natDecimal n with _ | ⟨b, t⟩
  · exact absurd hd (natDecimal_ne_nil n)
  · have hb : 48 ≤ b ∧ b ≤ 57 := natDecimal_mem n b (hd ▸ List.mem_cons_self b t)
    have h45 : b ≠ 45 := by omega
    have hall : (b :: t).all isDigitByte = true := hd ▸ natDecimal_all_digits n
    simp only [pyInt, if_neg h45, hall, if_pos]
    rw [← hd, decValue_natDecimal]

theorem splitOnSpace_no_space (bs : List Nat) (h : ∀ b ∈ bs, b ≠ 32) :
    splitOnSpace bs = [bs] := by
  induction bs with
  | nil => rfl
  | cons b rest ih =>
    have hb : b ≠ 32 := h b (List.mem_cons_self b rest)
    have := ih (fun x hx => h x (List.mem_cons_of_mem b hx))
    simp [splitOnSpace, spaceByte, hb, this]

theorem splitOnSpace_append (xs ys : List Nat) (h : ∀ b ∈ xs, b ≠ 32) :
    splitOnSpace (xs ++ 32 :: ys) = xs :: splitOnSpace ys := by
  induction xs with
  | nil => simp [splitOnSpace, spaceByte]
  | cons x xs ih =>
    have hx : x ≠ 32 := h x (List.mem_cons_self x xs)
    have := ih (fun b hb => h b (List.mem_cons_of_mem x hb))
    simp [splitOnSpace, spaceByte, hx, this]

theorem get_rowcount_select (n : Nat) :
    get_rowcount (selectTag n) = .ok (some (n : Int)) := by
  have hre : selectTag n = strBytes "SELECT" ++ 32 :: natDecimal n := by
    rw [selectTag, show strBytes "SELECT " = strBytes "SELECT" ++ [32] from rfl,
      List.append_assoc]
    rfl
  unfold get_rowcount
  rw [if_pos (show startsWithB (strBytes "SELECT") (selectTag n) = true from rfl)]
  rw [hre, splitOnSpace_append _ _ (by decide),
    splitOnSpace_no_space _ (natDecimal_no_space n)]
  show (pyInt (natDecimal n)).map some = _
  rw [pyInt_natDecimal]
  rfl

theorem get_rowcount_insert (oid n : Nat) :
    get_rowcount (insertTag oid n) = .ok (some (n : Int)) := by
  have hre : insertTag oid n
      = strBytes "INSERT" ++ 32 :: (natDecimal oid ++ 32 :: natDecimal n) := by
    rw [insertTag, show strBytes "INSERT " = strBytes "INSERT" ++ [32] from rfl,
      List.append_assoc, List.append_assoc]
    rfl
  unfold get_rowcount
  rw [if_neg (show ¬ startsWithB (strBytes "SELECT") (insertTag oid n) = true from by
    rw [hre]; simp [startsWithB, strBytes])]
  rw [if_pos (show startsWithB (strBytes "INSERT") (insertTag oid n) = true from by
    rw [hre]; exact rfl)]
  rw [hre, splitOnSpace_append _ _ (by decide),
    splitOnSpace_append _ _ (natDecimal_no_space oid),
    splitOnSpace_no_space _ (natDecimal_no_space n)]
  show (pyInt (natDecimal n)).map some = _
  rw [pyInt_natDecimal]
  rfl

theorem get_rowcount_update (n : Nat) :
    get_rowcount (updateTag n) = .ok (some (n : Int)) := by
  have hre : updateTag n = strBytes "UPDATE" ++ 32 :: natDecimal n := by
    rw [updateTag, show strBytes "UPDATE " = strBytes "UPDATE" ++ [32] from rfl,
      List.append_assoc]
    rfl
  unfold get_rowcount
  rw [if_neg (show ¬ startsWithB (strBytes "SELECT") (updateTag n) = true from by
    rw [hre]; simp [startsWithB, strBytes])]
  rw [if_neg (show ¬ startsWithB (strBytes "INSERT") (updateTag n) = true from by
    rw [hre]; simp [startsWithB, strBytes])]
  rw [if_pos (show startsWithB (strBytes "UPDATE") (updateTag n) = true from by
    rw [hre]; exact rfl)]
  rw [hre, splitOnSpace_append _ _ (by decide),
    splitOnSpace_no_space _ (natDecimal_no_space n)]
  show (pyInt (natDecimal n)).map some = _
  rw [pyInt_natDecimal]
  rfl

theorem get_rowcount_other (tag : List Nat)
    (h1 : startsWithB (strBytes "SELECT") tag = false)
    (h2 : startsWithB (strBytes "INSERT") tag = false)
    (h3 : startsWithB (strBytes "UPDATE") tag = false) :
    get_rowcount tag = .ok none := by
  unfold get_rowcount
  rw [if_neg (by rw [h1]; exact Bool.false_ne_true),
    if_neg (by rw [h2]; exact Bool.false_ne_true),
    if_neg (by rw [h3]; exact Bool.false_ne_true)]

theorem get_rowcount_delete (n : Nat) :
    get_rowcount (deleteTag n) = .ok none := by
  have hre : deleteTag n = strBytes "DELETE" ++ 32 :: natDecimal n := by
    rw [deleteTag, show strBytes "DELETE " = strBytes "DELETE" ++ [32] from rfl,
      List.append_assoc]
    rfl
  refine get_rowcount_other _ ?_ ?_ ?_ <;>
    (rw [hre]; simp [startsWithB, strBytes])

theorem process_simple_query_command_complete (tag : List Nat) (acc : List RawRow) :
    process_simple_query [.commandComplete tag] acc
      = (get_rowcount tag).map fun rc => (acc, rc) := rfl

/-- Claim C1 (as stated, refuted): a simple query whose CommandComplete
tag is `DELETE 3` leaves the rowcount `None`, not 3; the source parses
only SELECT, INSERT and UPDATE tags. -/
theorem c1_delete_rowcount_counterexample :
    process_simple_query [.commandComplete (strBytes "DELETE 3")] [] = .ok ([], none)
  ∧ (Except.ok ([], none) : Except String (List RawRow × Option Int))
      ≠ .ok ([], some 3) := by
  refine ⟨rfl, ?_⟩
  intro h
  simp only [Except.ok.injEq, Prod.mk.injEq] at h
  exact Option.noConfusion h.2

/-- Claim C1 (amended): for a simple-query execution ending in
CommandComplete, a `SELECT n`, `INSERT oid n` or `UPDATE n` tag sets the
rowcount to n, while every tag not starting with SELECT, INSERT or UPDATE
(`DELETE n` included) leaves the rowcount null. -/
theorem c1_rowcount_amended (n oid : Nat) (tag : List Nat)
    (h1 : startsWithB (strBytes "SELECT") tag = false)
    (h2 : startsWithB (strBytes "INSERT") tag = false)
    (h3 : startsWithB (strBytes "UPDATE") tag = false) :
    process_simple_query [.commandComplete (selectTag n)] [] = .ok ([], some (n : Int))
  ∧ process_simple_query [.commandComplete (insertTag oid n)] [] = .ok ([], some (n : Int))
  ∧ process_simple_query [.commandComplete (updateTag n)] [] = .ok ([], some (n : Int))
  ∧ process_simple_query [.commandComplete (deleteTag n)] [] = .ok ([], none)
  ∧ process_simple_query [.commandComplete tag] [] = .ok ([], none) := by
  refine ⟨?_, ?_, ?_, ?_, ?_⟩
  · rw [process_simple_query_command_complete, get_rowcount_select]; rfl
  · rw [process_simple_query_command_complete, get_rowcount_insert]; rfl
  · rw [process_simple_query_command_complete, get_rowcount_update]; rfl
  · rw [process_simple_query_command_complete, get_rowcount_delete]; rfl
  · rw [process_simple_query_command_complete, get_rowcount_other tag h1 h2 h3]; rfl

theorem c1_rowcount_amended_witness :
    startsWithB (strBytes "SELECT") (strBytes "CREATE TABLE") = false
  ∧ startsWithB (strBytes "INSERT") (strBytes "CREATE TABLE") = false
  ∧ startsWithB (strBytes "UPDATE") (strBytes "CREATE TABLE") = false
  ∧ (process_simple_query [.commandComplete (selectTag 2)] [] = .ok ([], some (2 : Int))
    ∧ process_simple_query [.commandComplete (insertTag 0 2)] [] = .ok ([], some (2 : Int))
    ∧ process_simple_query [.commandComplete (updateTag 2)] [] = .ok ([], some (2 : Int))
    ∧ process_simple_query [.commandComplete (deleteTag 2)] [] = .ok ([], none)
    ∧ process_simple_query [.commandComplete (strBytes "CREATE TABLE")] [] = .ok ([], none)) :=
  ⟨rfl, rfl, rfl, c1_rowcount_amended 2 0 (strBytes "CREATE TABLE") rfl rfl rfl⟩

/-- Claim C2 (as stated, refuted): on EmptyQueryResponse the simple-query
loop returns no rows but sets the rowcount to 0, which differs from the
claimed null. -/
theorem c2_empty_query_counterexample :
    process_simple_query [.emptyQueryResponse] [] = .ok ([], some 0)
  ∧ (some (0 : Int)) ≠ none := by
  exact ⟨rfl, fun h => Option.noConfusion h⟩

/-- Claim C2 (amended): a simple-query execution whose server reply is
EmptyQueryResponse returns an empty list of rows, and the rowcount is set
to 0 (not null). -/
theorem c2_empty_query_amended (rest : List SrvMsg) :
    process_simple_query (.emptyQueryResponse :: rest) [] = .ok ([], some 0) := rfl

/-- Claim C3 (as stated, refuted): on AuthenticationCleartextPassword the
pre-auth handler raises an interface error naming the method unsupported;
it does not send a PasswordMessage with the raw password. -/
theorem c3_cleartext_counterexample :
    handle_pre_auth_msg id [112, 119] [117] .authenticationCleartextPassword
      = .raiseInterfaceError "CleartextPassword"
  ∧ PreAuthAction.raiseInterfaceError "CleartextPassword"
      ≠ .sendBytes (pgEncode (.passwordMessage [112, 119])) :=
  ⟨rfl, fun h => PreAuthAction.noConfusion h⟩

/-- Claim C3 (amended): whenever the server answers startup with an
AuthenticationCleartextPassword message, the engine fails with an
interface error reporting the method as unsupported (only AuthenticationOk
and AuthenticationMD5Password are handled); no PasswordMessage is sent. -/
theorem c3_cleartext_amended (md5 : List Nat → List Nat)
    (password username : List Nat) :
    handle_pre_auth_msg md5 password username .authenticationCleartextPassword
      = .raiseInterfaceError "CleartextPassword"
  ∧ ∀ wire, handle_pre_auth_msg md5 password username .authenticationCleartextPassword
      ≠ .sendBytes wire :=
  ⟨rfl, fun _ h => PreAuthAction.noConfusion h⟩

/-- Claim C7 (as stated, refuted): executing on a connection whose closing
flag is set sends nothing but raises a ProgrammingError, not an interface
error. -/
theorem c7_closed_execute_counterexample :
    execute_messages ⟨true, false, true, true⟩ [[81]]
      = ([], some (.programmingError "Connection is closed."))
  ∧ isInterfaceError (.programmingError "Connection is closed.") = false :=
  ⟨rfl, rfl⟩

/-- Claim C7 (amended): for every call to execute on a connection whose
closing flag is set or whose closed event has fired, the call fails with
a programming error (message `Connection is closed.`) before any protocol
message is sent. -/
theorem c7_closed_execute_amended (s : ExecState) (restSends : List (List Nat))
    (h : (s.startClosing || s.closedEvent) = true) :
    execute_messages s restSends
      = ([], some (.programmingError "Connection is closed.")) := by
  unfold execute_messages execute_guard
  rw [if_pos h]

theorem c7_closed_execute_amended_witness :
    ((true : Bool) || false) = true
  ∧ execute_messages ⟨true, false, true, true⟩ [[81, 0, 0, 0, 5, 0]]
      = ([], some (.programmingError "Connection is closed.")) :=
  ⟨rfl, c7_closed_execute_amended ⟨true, false, true, true⟩ [[81, 0, 0, 0, 5, 0]] rfl⟩

theorem hexLowerBytes_length (digest : List Nat) :
    (hexLowerBytes digest).length = 2 * digest.length := by
  induction digest with
  | nil => rfl
  | cons b t ih =>
    simp only [hexLowerBytes, List.flatMap_cons] at ih ⊢
    simp [ih]; omega

theorem hexLowerBytes_mem (digest : List Nat) (hd : ∀ b ∈ digest, b < 256) :
    ∀ c ∈ hexLowerBytes digest, (48 ≤ c ∧ c ≤ 57) ∨ (97 ≤ c ∧ c ≤ 102) := by
  intro c hc
  unfold hexLowerBytes at hc
  rw [List.mem_flatMap] at hc
  obtain ⟨b, hb, hcb⟩ := hc
  have hblt := hd b hb
  have h16 : b / 16 < 16 := by omega
  have hm16 : b % 16 < 16 := Nat.mod_lt _ (by norm_num)
  simp only [List.mem_cons, List.not_mem_nil, or_false] at hcb
  rcases hcb with rfl | rfl <;> · unfold hexDigitByte; split_ifs <;> omega

/-- Claim C9: the PasswordMessage built for MD5 authentication carries
exactly `md5` followed by md5_hex(md5_hex(password || user) || salt),
with each hash rendered as lowercase ASCII hex, and the wire frame wraps
those bytes as a NUL-terminated string with type byte `p`. The MD5 digest
primitive is abstracted as a parameter, so the equation holds for every
digest function. -/
theorem c9_md5_password (md5 : List Nat → List Nat) (p u s : List Nat)
    (hs : s.length = 4) :
    password_message_md5 md5 p u s = spec_md5_password md5 p u s
  ∧ pgEncode (.passwordMessage (password_message_md5 md5 p u s))
      = 112 :: natTo4be (4 + (password_message_md5 md5 p u s).length + 1)
          ++ password_message_md5 md5 p u s ++ [0]
  ∧ ∀ digest : List Nat, (∀ b ∈ digest, b < 256) →
      (hexLowerBytes digest).length = 2 * digest.length
      ∧ ∀ c ∈ hexLowerBytes digest, (48 ≤ c ∧ c ≤ 57) ∨ (97 ≤ c ∧ c ≤ 102) :=
  ⟨rfl, rfl, fun digest hd => ⟨hexLowerBytes_length digest, hexLowerBytes_mem digest hd⟩⟩

theorem c9_md5_password_witness :
    ([1, 2, 3, 4] : List Nat).length = 4
  ∧ password_message_md5 (fun _ => List.replicate 16 0) [97] [98] [1, 2, 3, 4]
      = spec_md5_password (fun _ => List.replicate 16 0) [97] [98] [1, 2, 3, 4] :=
  ⟨rfl, (c9_md5_password (fun _ => List.replicate 16 0) [97] [98] [1, 2, 3, 4] rfl).1⟩

/-- Claim C4: round-trip failure witnessed at a NoticeResponse carrying
one (severity, WARNING) pair. The generic serializer never visits the
instance-held pairs, so the encoded frame has an empty payload; decoding
that frame reaches the end of the buffer before any terminator and
raises, so decode(encode(m)) is an error rather than m. -/
theorem c4_notice_roundtrip_failure :
    pgEncode (.noticeResponse [(83, [87, 65, 82, 78, 73, 78, 71])])
      = [78, 0, 0, 0, 4]
  ∧ pg_deserialize (pgEncode (.noticeResponse [(83, [87, 65, 82, 78, 73, 78, 71])])) 0
      = .error "Unterminated NoticeMessage message (should end with a zero byte)" :=
  ⟨rfl, rfl⟩

/-- Claim C5: on the complete one-byte-payload NoticeResponse frame
`N 00 00 00 05 00` (at least 5 bytes buffered, declared length 5 within
the buffer) the deserializer returns `(None, 6)`: the declared length
plus one is consumed but no message is produced, because
`NoticeResponse._deserialize` falls off its end and returns Python None. -/
theorem c5_complete_frame_none_result :
    pg_deserialize [78, 0, 0, 0, 5, 0] 0 = .ok (none, 6)
  ∧ ([78, 0, 0, 0, 5, 0] : List Nat).length - 0 ≥ 5
  ∧ beNat (sliceBytes [78, 0, 0, 0, 5, 0] 1 5)
      ≤ ([78, 0, 0, 0, 5, 0] : List Nat).length - 0 - 1 :=
  ⟨rfl, by decide, by decide⟩

/-- Claim C8: sending a batch containing any of Query, Parse, Bind,
Describe, Execute, Close or Flush clears the ready flag; a step can turn
the ready flag from false to true only by handling a ReadyForQuery; a
gated batch can only be sent from a ready state; and along any trace with
no ReadyForQuery event a cleared ready flag stays cleared. -/
theorem c8_ready_gate :
    (∀ (s : ConnState) (msgs : List WireMsgKind),
      msgs.any isQueryMessageType = true → (send_msg s msgs).isReady = false)
  ∧ (∀ (s : ConnState) (e : ConnEvent) (s2 : ConnState),
      ConnStep s e s2 → s.isReady = false → s2.isReady = true →
      ∃ status, e = .recvReadyForQuery status)
  ∧ (∀ (s : ConnState) (msgs : List WireMsgKind) (s2 : ConnState),
      ConnStep s (.sendMsgs msgs) s2 → msgs.any isQueryMessageType = true →
      s.isReady = true)
  ∧ (∀ (s : ConnState) (es : List ConnEvent) (s2 : ConnState),
      ConnTrace s es s2 → s.isReady = false →
      (∀ status, ConnEvent.recvReadyForQuery status ∉ es) →
      s2.isReady = false) := by
  refine ⟨?_, ?_, ?_, ?_⟩
  · intro s msgs h
    unfold send_msg
    rw [if_pos h]
  · intro s e s2 hstep hf ht
    cases hstep with
    | sendGated msgs hr hg => rw [hf] at hr; exact Bool.noConfusion hr
    | sendUngated msgs hun =>
      rw [show send_msg s msgs = s from by unfold send_msg; rw [if_neg (by simp [hun])]] at ht
      rw [hf] at ht
      exact Bool.noConfusion ht
    | recvRFQ status s2x hh => exact ⟨status, rfl⟩
    | recvOther => rw [hf] at ht; exact Bool.noConfusion ht
  · intro s msgs s2 hstep hg
    cases hstep with
    | sendGated msgs2 hr hg2 => exact hr
    | sendUngated msgs2 hun => rw [hg] at hun; exact Bool.noConfusion hun
  · intro s es s2 htr
    induction htr with
    | nil => intro hf _; exact hf
    | cons s e s2 es s3 hstep htr ih =>
      intro hf hmem
      have h2 : s2.isReady = false := by
        cases hstep with
        | sendGated msgs hr hg => rw [hf] at hr; exact Bool.noConfusion hr
        | sendUngated msgs hun =>
          rw [show send_msg s msgs = s from by unfold send_msg; rw [if_neg (by simp [hun])]]
          exact hf
        | recvRFQ status s2x hh =>
          exact absurd (List.mem_cons_self _ _) (hmem status)
        | recvOther => exact hf
      exact ih h2 (fun status hmem2 => hmem status (List.mem_cons_of_mem _ hmem2))

theorem c8_ready_gate_witness :
    ([WireMsgKind.query].any isQueryMessageType = true)
  ∧ (send_msg ⟨true, .idle⟩ [.query]).isReady = false
  ∧ (∃ status, ConnEvent.recvReadyForQuery 73 = .recvReadyForQuery status)
  ∧ (⟨true, .idle⟩ : ConnState).isReady = true
  ∧ (⟨false, .idle⟩ : ConnState).isReady = false :=
  ⟨rfl,
    c8_ready_gate.1 ⟨true, .idle⟩ [.query] rfl,
    c8_ready_gate.2.1 ⟨false, .initializing⟩ (.recvReadyForQuery 73) ⟨true, .idle⟩
      (ConnStep.recvRFQ _ 73 _ rfl) rfl rfl,
    c8_ready_gate.2.2.1 ⟨true, .idle⟩ [.query] (send_msg ⟨true, .idle⟩ [.query])
      (ConnStep.sendGated _ _ rfl rfl) rfl,
    c8_ready_gate.2.2.2 ⟨false, .idle⟩ [] ⟨false, .idle⟩ (ConnTrace.nil _) rfl
      (fun _ => List.not_mem_nil _)⟩

theorem close_pending_statements_fst (b : Bool) (l : List String) :
    (close_pending_statements b l).1 = l := by
  unfold close_pending_statements
  split <;> rfl

theorem stmtFold_fst (ops : List StmtOp) :
    ∀ (s : List String) (log : List (List String)),
      (List.foldl stmtStep (s, log) ops).1 = s ++ recordedNames ops := by
  induction ops with
  | nil => intro s log; simp [recordedNames]
  | cons op rest ih =>
    intro s log
    cases op with
    | record n =>
      simp only [List.foldl_cons, stmtStep, close_stmt]
      rw [ih]
      simp [recordedNames, List.filterMap_cons]
    | topLevelExecute b =>
      simp only [List.foldl_cons, stmtStep]
      rw [ih]
      simp [recordedNames, List.filterMap_cons, close_pending_statements_fst]

theorem runStmtOps_append_execute (ops : List StmtOp) (b : Bool) :
    runStmtOps (ops ++ [.topLevelExecute b])
      = stmtStep (runStmtOps ops) (.topLevelExecute b) := by
  rw [runStmtOps, runStmtOps, List.foldl_append]
  rfl

/-- Claim C10: `_close_pending_statements` never removes names from the
statements-to-close list: after any sequence of recordings and top-level
executes the list holds exactly the names ever recorded via
`_close_stmt`, in order; every later non-transaction top-level execute
re-issues the guarded DEALLOCATE block for all of them, while an
in-transaction execute issues nothing and also keeps the list. -/
theorem c10_deferred_close_retention (ops : List StmtOp) (inTx : Bool)
    (stmts : List String) (name : String) :
    (runStmtOps ops).1 = recordedNames ops
  ∧ runStmtOps (ops ++ [.topLevelExecute false])
      = ((runStmtOps ops).1,
          (runStmtOps ops).2 ++ [(runStmtOps ops).1.map deallocStatement])
  ∧ runStmtOps (ops ++ [.topLevelExecute true])
      = ((runStmtOps ops).1, (runStmtOps ops).2 ++ [[]])
  ∧ (close_pending_statements inTx stmts).1 = stmts
  ∧ close_stmt stmts name = stmts ++ [name] := by
  refine ⟨by rw [runStmtOps, stmtFold_fst]; rfl, ?_, ?_,
    close_pending_statements_fst inTx stmts, rfl⟩
  · rw [runStmtOps_append_execute]
    rcases hr : runStmtOps ops with ⟨st, lg⟩
    simp [stmtStep, close_pending_statements]
  · rw [runStmtOps_append_execute]
    rcases hr : runStmtOps ops with ⟨st, lg⟩
    simp [stmtStep, close_pending_statements]

theorem findZeroIdx_append (xs ys : List Nat) (h : ∀ b ∈ xs, b ≠ 0) :
    findZeroIdx (xs ++ 0 :: ys) = some xs.length := by
  induction xs with
  | nil => simp [findZeroIdx]
  | cons x xs ih =>
    have hx : x ≠ 0 := h x (List.mem_cons_self x xs)
    simp [findZeroIdx, hx, ih (fun b hb => h b (List.mem_cons_of_mem x hb))]

theorem findZeroFrom_append (pre mid rest : List Nat) (h : ∀ b ∈ mid, b ≠ 0) :
    findZeroFrom (pre ++ (mid ++ 0 :: rest)) pre.length
      = some (pre.length + mid.length) := by
  unfold findZeroFrom
  rw [List.drop_left, findZeroIdx_append mid rest h]
  rfl

theorem findZeroFrom_cons (pre : List Nat) (c : Nat) (mid rest : List Nat)
    (h : ∀ b ∈ mid, b ≠ 0) :
    findZeroFrom (pre ++ c :: (mid ++ 0 :: rest)) (pre.length + 1)
      = some (pre.length + 1 + mid.length) := by
  have he : pre ++ c :: (mid ++ 0 :: rest) = (pre ++ [c]) ++ (mid ++ 0 :: rest) := by
    simp
  have hl : pre.length + 1 = (pre ++ [c]).length := by simp
  rw [he, hl, findZeroFrom_append _ _ _ h]

theorem sliceBytes_cons (pre : List Nat) (c : Nat) (v rest : List Nat) :
    sliceBytes (pre ++ c :: (v ++ rest)) (pre.length + 1) (pre.length + 1 + v.length)
      = v := by
  have he : pre ++ c :: (v ++ rest) = (pre ++ [c]) ++ (v ++ rest) := by simp
  have hl : pre.length + 1 = (pre ++ [c]).length := by simp
  rw [he, hl]
  unfold sliceBytes
  rw [List.drop_left]
  simp [List.take_left]

theorem getD_append_cons (pre : List Nat) (c : Nat) (l : List Nat) (d : Nat) :
    (pre ++ c :: l).getD pre.length d = c := by
  rw [List.getD_append_right _ _ _ _ (le_refl _)]
  simp


theorem errScan_wellformed (ps : List (Nat × List Nat)) :
    ∀ (pre post : List Nat) (acc : List (Nat × List Nat)), wfPairs ps →
    errScan (pre ++ (pairsFlat ps ++ 0 :: post)) pre.length acc
      = .ok (acc ++ ps, pre.length + (pairsFlat ps).length) := by
  induction ps with
  | nil =>
    intro pre post acc _
    rw [show pairsFlat [] = [] from rfl, List.nil_append]
    unfold errScan
    rw [if_pos (by simp)]
    simp only [getD_append_cons]
    simp [pairsFlat]
  | cons p tl ih =>
    obtain ⟨c, v⟩ := p
    intro pre post acc hwf
    have hc : c ≠ 0 := (hwf (c, v) (List.mem_cons_self _ _)).1
    have hv : ∀ b ∈ v, b ≠ 0 := by
      intro b hb heq
      exact (hwf (c, v) (List.mem_cons_self _ _)).2 (heq ▸ hb)
    have hflat : pairsFlat ((c, v) :: tl) ++ 0 :: post
        = c :: (v ++ 0 :: (pairsFlat tl ++ 0 :: post)) := by
      simp [pairsFlat, pairBytes, List.flatMap_cons]
    rw [hflat]
    unfold errScan
    rw [if_pos (by simp)]
    simp only [getD_append_cons]
    rw [if_neg hc]
    rw [findZeroFrom_cons pre c v (pairsFlat tl ++ 0 :: post) hv]
    split
    next h => exact absurd h (by simp)
    next z h =>
      have hz2 : pre.length + 1 + v.length = z := by injection h
      subst hz2
      have hslice := sliceBytes_cons pre c v (0 :: (pairsFlat tl ++ 0 :: post))
      rw [hslice]
      have hre : pre ++ c :: (v ++ 0 :: (pairsFlat tl ++ 0 :: post))
          = (pre ++ pairBytes (c, v)) ++ (pairsFlat tl ++ 0 :: post) := by
        simp [pairBytes]
      have hidx : pre.length + 1 + v.length + 1 = (pre ++ pairBytes (c, v)).length := by
        simp [pairBytes]
        omega
      rw [hre, hidx, ih (pre ++ pairBytes (c, v)) post (acc ++ [(c, v)])
        (fun q hq => hwf q (List.mem_cons_of_mem _ hq))]
      have hlen : (pre ++ pairBytes (c, v)).length + (pairsFlat tl).length
          = pre.length + (pairsFlat ((c, v) :: tl)).length := by
        simp [pairBytes, pairsFlat, List.flatMap_cons]
        omega
      rw [hlen]
      simp

theorem findZeroIdx_some (l : List Nat) :
    ∀ k, findZeroIdx l = some k → k < l.length ∧ l.getD k 0 = 0 := by
  induction l with
  | nil => intro k h; simp [findZeroIdx] at h
  | cons b rest ih =>
    intro k h
    unfold findZeroIdx at h
    by_cases hb : b = 0
    · rw [if_pos hb] at h
      injection h with h
      subst h
      simp [hb]
    · rw [if_neg hb] at h
      simp only [Option.map_eq_some'] at h
      obtain ⟨k2, hk2, rfl⟩ := h
      obtain ⟨h1, h2⟩ := ih k2 hk2
      refine ⟨by simp; omega, ?_⟩
      simpa using h2

theorem findZeroFrom_some (msg : List Nat) (start z : Nat)
    (h : findZeroFrom msg start = some z) :
    start ≤ z ∧ z < msg.length ∧ msg.getD z 0 = 0 := by
  simp only [findZeroFrom, Option.map_eq_some'] at h
  obtain ⟨k, hk, rfl⟩ := h
  obtain ⟨h1, h2⟩ := findZeroIdx_some _ k hk
  rw [List.length_drop] at h1
  refine ⟨Nat.le_add_right _ _, by omega, ?_⟩
  rw [List.getD_eq_getElem?_getD] at h2 ⊢
  rw [List.getElem?_drop] at h2
  exact h2

theorem errScan_ok_bound (msg : List Nat) (idx0 : Nat) (acc0 : List (Nat × List Nat)) :
    ∀ ps i, errScan msg idx0 acc0 = .ok (ps, i) →
      i < msg.length ∧ msg.getD i 0 = 0 := by
  refine errScan.induct msg
    (fun idx acc => ∀ ps i, errScan msg idx acc = .ok (ps, i) →
      i < msg.length ∧ msg.getD i 0 = 0) ?_ ?_ ?_ ?_ idx0 acc0
  · intro idx acc hlt hcode ps i heq
    rw [errScan.eq_def, if_pos hlt, if_pos hcode] at heq
    simp only [Except.ok.injEq, Prod.mk.injEq] at heq
    obtain ⟨-, rfl⟩ := heq
    exact ⟨hlt, hcode⟩
  · intro idx acc hlt hcode hnone ps i heq
    rw [errScan.eq_def, if_pos hlt, if_neg hcode, hnone] at heq
    exact absurd heq (by simp)
  · intro idx acc hlt hcode z hsome ih ps i heq
    rw [errScan.eq_def, if_pos hlt, if_neg hcode, hsome] at heq
    exact ih ps i heq
  · intro idx acc hlt ps i heq
    rw [errScan.eq_def, if_neg hlt] at heq
    exact absurd heq (by simp)

theorem getD_mem_drop (msg : List Nat) (idx j : Nat) (hj : idx ≤ j)
    (hlt : j < msg.length) : msg.getD j 0 ∈ msg.drop idx := by
  have hzlt : j - idx < (msg.drop idx).length := by
    rw [List.length_drop]; omega
  have h1 : msg.getD j 0 = (msg.drop idx).getD (j - idx) 0 := by
    rw [List.getD_eq_getElem?_getD, List.getD_eq_getElem?_getD,
      List.getElem?_drop, show idx + (j - idx) = j from by omega]
  rw [h1, List.getD_eq_getElem _ _ hzlt]
  exact List.getElem_mem hzlt

theorem errScan_no_zero (msg : List Nat) (idx : Nat) (acc : List (Nat × List Nat))
    (h : ∀ b ∈ msg.drop idx, b ≠ 0) :
    ∃ e, errScan msg idx acc = .error e := by
  rw [errScan.eq_def]
  by_cases hlt : idx < msg.length
  · rw [if_pos hlt]
    have hcode : msg.getD idx 0 ≠ 0 :=
      h _ (getD_mem_drop msg idx idx (le_refl idx) hlt)
    rw [if_neg hcode]
    rcases hfz : findZeroFrom msg (idx + 1) with _ | z
    · exact ⟨_, rfl⟩
    · exfalso
      obtain ⟨hz1, hz2, hz3⟩ := findZeroFrom_some msg (idx + 1) z hfz
      exact h _ (getD_mem_drop msg idx z (by omega) hz2) hz3
  · rw [if_neg hlt]
    exact ⟨_, rfl⟩

/-- Claim C6 (as stated, refuted): on a buffer holding an ErrorResponse
frame of declared length 5 (a one-byte payload `C` with no terminator)
followed by further buffered bytes, the pair scan reads on past the
frame, returns a pair whose string comes from beyond the declared
length, stops only at index 9, and raises no error. -/
theorem c6_error_scan_counterexample :
    errScan [69, 0, 0, 0, 5, 67, 104, 105, 0, 0] 5 []
      = .ok ([(67, [104, 105])], 9)
  ∧ error_response_deserialize [69, 0, 0, 0, 5, 67, 104, 105, 0, 0] 5 1
      = .ok (some (.errorResponse [(67, [104, 105])]))
  ∧ (∀ b ∈ sliceBytes [69, 0, 0, 0, 5, 67, 104, 105, 0, 0] 5 6, b ≠ 0)
  ∧ 5 + 1 ≤ 9 := by
  have h1 : errScan [69, 0, 0, 0, 5, 67, 104, 105, 0, 0] 5 []
      = .ok ([(67, [104, 105])], 9) :=
    errScan_wellformed [(67, [104, 105])] [69, 0, 0, 0, 5] [] [] (by unfold wfPairs; decide)
  refine ⟨h1, ?_, by decide, by decide⟩
  rw [error_response_deserialize, h1]
  rfl

/-- Claim C6 (amended): the ErrorResponse pair scan reads (field-code,
NUL-terminated string) pairs and stops at the lone terminating 0 byte,
but it is bounded by the end of the receive buffer rather than by the
declared frame length (the length argument is ignored): on a well-formed
pair region it stops exactly at the terminator, never reading past it; a
successful scan always stops on a 0 byte inside the buffer; when no 0
byte remains in the buffer it raises; and the NoticeResponse decoder
recognizes the leading terminator but yields no message object. -/
theorem c6_error_scan_amended :
    (∀ (ps : List (Nat × List Nat)) (pre post : List Nat)
        (acc : List (Nat × List Nat)), wfPairs ps →
      errScan (pre ++ (pairsFlat ps ++ 0 :: post)) pre.length acc
        = .ok (acc ++ ps, pre.length + (pairsFlat ps).length))
  ∧ (∀ (msg : List Nat) (idx : Nat) (acc ps : List (Nat × List Nat)) (i : Nat),
      errScan msg idx acc = .ok (ps, i) → i < msg.length ∧ msg.getD i 0 = 0)
  ∧ (∀ (msg : List Nat) (idx : Nat) (acc : List (Nat × List Nat)),
      (∀ b ∈ msg.drop idx, b ≠ 0) → ∃ e, errScan msg idx acc = .error e)
  ∧ (∀ (msg : List Nat) (start : Nat), start < msg.length →
      msg.getD start 0 = 0 → notice_deserialize msg start = .ok none) :=
  ⟨fun ps pre post acc h => errScan_wellformed ps pre post acc h,
   fun msg idx acc ps i h => errScan_ok_bound msg idx acc ps i h,
   fun msg idx acc h => errScan_no_zero msg idx acc h,
   fun msg start h1 h2 => by unfold notice_deserialize; rw [if_pos h1, if_pos h2]⟩

theorem c6_error_scan_amended_witness :
    (wfPairs [(67, [104])]
      ∧ errScan ([] ++ (pairsFlat [(67, [104])] ++ 0 :: [])) (List.length ([] : List Nat)) []
        = .ok ([] ++ [(67, [104])], List.length ([] : List Nat) + (pairsFlat [(67, [104])]).length))
  ∧ (errScan [0] 0 [] = .ok ([], 0) ∧ 0 < ([0] : List Nat).length ∧ ([0] : List Nat).getD 0 0 = 0)
  ∧ ((∀ b ∈ ([1] : List Nat).drop 0, b ≠ 0) ∧ ∃ e, errScan [1] 0 [] = .error e)
  ∧ (0 < ([0] : List Nat).length ∧ ([0] : List Nat).getD 0 0 = 0
      ∧ notice_deserialize [0] 0 = .ok none) := by
  have hwf : wfPairs [(67, [104])] := by unfold wfPairs; decide
  have hscan : errScan [0] 0 [] = .ok ([], 0) :=
    c6_error_scan_amended.1 [] [] [] [] (fun p hp => absurd hp (List.not_mem_nil p))
  refine ⟨⟨hwf, c6_error_scan_amended.1 [(67, [104])] [] [] [] hwf⟩,
    ⟨hscan, ?_, ?_⟩, ⟨by decide, c6_error_scan_amended.2.2.1 [1] 0 [] (by decide)⟩,
    ⟨by decide, by decide, c6_error_scan_amended.2.2.2 [0] 0 (by decide) (by decide)⟩⟩
  · exact (c6_error_scan_amended.2.1 [0] 0 [] [] 0 hscan).1
  · exact (c6_error_scan_amended.2.1 [0] 0 [] [] 0 hscan).2
